import Mathlib

/-!
Verification development for the darbot-seek Foundry Local integration
gateway: the Version Sanitizer, Message Normalizer, Environment
Negotiator, Invocation Supervisor and the command-running helper.

Pure functions of the Python/C# sources are embedded as Lean functions;
the nondeterministic behaviour of the operating system (how a launched
subprocess finishes) is an explicit parameter of type `ProcResult`.
Components whose implementation lives outside the audited tree (the
FoundryFix C# sanitizer and the provider function in
sources/llm_provider.py) are modelled from the specification, as marked
in their doc comments.
-/

set_option autoImplicit false

namespace DarbotSeek

/-- Modelled from the spec: one step of digit-group extraction for the
Version Sanitizer (§4.2), whose implementation (the FoundryFix C#
component) is not part of the audited tree.  Digit groups are the
maximal runs of decimal digits of the input, taken in left-to-right
order; whitespace and every other non-digit character act only as
separators and never reach the output. -/
def groupStep (c : Char) (cs : List Char) (rest : List (List Char)) :
    List (List Char) :=
  if c.isDigit then
    match cs, rest with
    | d :: _, g :: gs => if d.isDigit then (c :: g) :: gs else [c] :: g :: gs
    | _, gs => [c] :: gs
  else rest

/-- Modelled from the spec: extraction of the digit groups of a character
list, one group per maximal run of decimal digits, in left-to-right
order (§4.2 step 2). -/
def digitGroups : List Char → List (List Char)
  | [] => []
  | c :: cs => groupStep c cs (digitGroups cs)

/-- Modelled from the spec: compose up to three digit groups into
MAJOR.MINOR.PATCH, missing groups defaulting to `0` (§4.2 step 3);
with no recoverable digit group the hard-coded fallback is `0.0.0`
(§4.2 step 4). -/
def composeVersion : List (List Char) → List Char
  | [] => ['0', '.', '0', '.', '0']
  | [a] => a ++ '.' :: '0' :: '.' :: ['0']
  | [a, b] => a ++ '.' :: (b ++ '.' :: ['0'])
  | a :: b :: c :: _ => a ++ '.' :: (b ++ '.' :: c)

/-- Modelled from the spec: the Version Sanitizer as a total
string-to-string transform (§4.2): extract the digit groups and compose
the first three into a semantic version. -/
def sanitizeVersion (s : String) : String :=
  ⟨composeVersion (digitGroups s.data)⟩

/-- A list of characters is one non-empty run of decimal digits. -/
def isDigitRun (l : List Char) : Bool :=
  !l.isEmpty && l.all Char.isDigit

/-- Split a character list at every `'.'` (checker used to state that a
string parses as a dotted version). -/
def splitDots : List Char → List (List Char)
  | [] => [[]]
  | c :: cs =>
    if c = '.' then
      [] :: splitDots cs
    else
      match splitDots cs with
      | [] => [[c]]
      | g :: gs => (c :: g) :: gs

/-- A character list reads as `MAJOR.MINOR.PATCH` with each component a
non-empty run of decimal digits (hence a non-negative integer). -/
def isSemVerChars (l : List Char) : Bool :=
  match splitDots l with
  | [a, b, c] => isDigitRun a && isDigitRun b && isDigitRun c
  | _ => false

/-- A string reads as `MAJOR.MINOR.PATCH` with each component a non-empty
run of decimal digits. -/
def isSemVer (s : String) : Bool :=
  isSemVerChars s.data

/-- A canonical conversation turn: `{role, content}`
(spec §3, ConversationTurn). -/
structure ConversationTurn where
  role : String
  content : String
  deriving DecidableEq, Repr

/-- The input shapes accepted by the Message Normalizer, after
edge_case_test.py (test_foundry_input_formats, lines 119-128), which
carries the provider's message-processing logic verbatim: a dict with
`role`/`content` entries, a two-element list read positionally, or any
other value together with its `str(...)` rendering. -/
inductive TurnRepr where
  | rcDict (role content : String)
  | pair (role content : String)
  | scalar (strRepr : String)
  deriving DecidableEq, Repr

/-- One step of the Message Normalizer, after edge_case_test.py lines
121-128: a dict is kept as is, a two-element list becomes
`{role: fst, content: snd}`, anything else becomes
`{role: "user", content: str(msg)}`. -/
def normalizeTurn : TurnRepr → ConversationTurn
  | .rcDict r c => ⟨r, c⟩
  | .pair r c => ⟨r, c⟩
  | .scalar s => ⟨"user", s⟩

/-- The Message Normalizer: maps the normalization step over the input
sequence (edge_case_test.py lines 119-128). -/
def normalizeMessages (history : List TurnRepr) : List ConversationTurn :=
  history.map normalizeTurn

/-- JSON values as relevant to the temporary request artifact.
Serialization with Python's json.dump and deserialization with json.load
are mutually inverse on this fragment (string-keyed objects, arrays,
strings), so the artifact round trip is modelled at the JSON-value
level. -/
inductive Json where
  | str (s : String)
  | arr (elems : List Json)
  | obj (fields : List (String × Json))

/-- Encoding of one turn into the artifact's JSON shape
(`{"role": ..., "content": ...}`, spec §6 and edge_case_test.py
lines 130-135). -/
def encodeTurn (t : ConversationTurn) : Json :=
  .obj [("role", .str t.role), ("content", .str t.content)]

/-- Encoding of the canonical request as the temporary artifact object
`{"messages": [...]}` (edge_case_test.py line 131). -/
def encodeRequest (msgs : List ConversationTurn) : Json :=
  .obj [("messages", .arr (msgs.map encodeTurn))]

/-- Reading one turn back from the artifact. -/
def decodeTurn : Json → Option ConversationTurn
  | .obj fields =>
    match fields.lookup "role", fields.lookup "content" with
    | some (.str r), some (.str c) => some ⟨r, c⟩
    | _, _ => none
  | _ => none

/-- Reading a turn sequence back from the artifact's `messages` array. -/
def decodeTurns : List Json → Option (List ConversationTurn)
  | [] => some []
  | j :: js =>
    match decodeTurn j, decodeTurns js with
    | some t, some ts => some (t :: ts)
    | _, _ => none

/-- Reading the whole artifact back (edge_case_test.py lines 138-141:
json.load followed by extraction of the `messages` list). -/
def decodeRequest : Json → Option (List ConversationTurn)
  | .obj fields =>
    match fields.lookup "messages" with
    | some (.arr js) => decodeTurns js
    | _ => none
  | _ => none

/-- How a launched subprocess finishes, from the supervising caller's
point of view: `subprocess.run` returned with an exit code and captured
streams, raised `TimeoutExpired`, or raised some other exception (a
missing binary raises `FileNotFoundError` whose `str(...)` is the
message). -/
inductive ProcResult where
  | completed (returncode : Int) (stdout stderr : String)
  | timedOut
  | raised (msg : String)
  deriving DecidableEq, Repr

/-- The command-running helper `run_command` of foundry_validation.py
lines 23-38 (identical in audit_validation.py lines 18-32 and
comprehensive_test.py lines 37-47): return
`(returncode, stdout, stderr)` on completion, `(-1, "", "Command timed
out")` on `TimeoutExpired`, and `(-1, "", str(e))` on any other
exception. -/
def run_command : ProcResult → Int × String × String
  | .completed rc out err => (rc, out, err)
  | .timedOut => (-1, "", "Command timed out")
  | .raised msg => (-1, "", msg)

/-- The four fixed overlay keys of the CPU-forcing environment
(spec §4.3; the key/value constants appear in audit_validation.py lines
219-224 and foundry_validation.py lines 183-188). -/
def overlayKeys : List String :=
  ["FOUNDRY_EXECUTION_PROVIDER", "CUDA_VISIBLE_DEVICES",
   "FOUNDRY_SKIP_CUDA_CHECK", "FOUNDRY_CUDA_VERSION_OVERRIDE"]

/-- The overlay entries: CPU-only execution provider, hidden accelerator
devices, probe skip, and the sanitized version override
(audit_validation.py lines 219-224). -/
def overlayPairs (version : String) : List (String × String) :=
  [("FOUNDRY_EXECUTION_PROVIDER", "CPUExecutionProvider"),
   ("CUDA_VISIBLE_DEVICES", "-1"),
   ("FOUNDRY_SKIP_CUDA_CHECK", "1"),
   ("FOUNDRY_CUDA_VERSION_OVERRIDE", version)]

/-- Modelled from the spec: the Environment Negotiator (§4.3) of the
provider in sources/llm_provider.py, which is not part of the audited
tree.  A process environment is an association list looked up
front-to-back, so prepending the overlay to a copy of the ambient
environment makes the overlay values take precedence, exactly as
`env = os.environ.copy(); env.update({...})` does in the audited
callers. -/
def buildFoundryEnv (ambient : List (String × String)) (version : String) :
    List (String × String) :=
  overlayPairs version ++ ambient

/-- The supervisor's outcome taxonomy (spec §3, InvocationOutcome). -/
inductive InvocationOutcome where
  | success (text : String)
  | recoverableFailure (reason : String)
  | fatalFailure (reason : String)
  deriving DecidableEq, Repr

/-- Which executable a launch event started. -/
inductive Tier where
  | primary
  | fallback
  deriving DecidableEq, Repr

/-- One subprocess launch performed by the supervisor: the tier, the
serialized request artifact handed to the process, and the process
environment it received. -/
structure LaunchEvent where
  tier : Tier
  artifact : Json
  env : List (String × String)

/-- The operating-system behaviour one invocation may encounter: whether
the fallback executable is present on disk at its expected location, and
how the primary and fallback launches would finish. -/
structure World where
  fallbackExists : Bool
  primaryResult : ProcResult
  fallbackResult : ProcResult

/-- Modelled from the spec: classification of the primary launch
(§4.4, §7): zero exit parses stdout as the reply; non-zero exit,
timeout and launch exceptions (missing binary) are recoverable for the
primary tier, the reason being the captured stderr or the timeout
marker. -/
def classifyPrimary : ProcResult → InvocationOutcome
  | .completed rc out err =>
    if rc = 0 then .success out else .recoverableFailure err
  | .timedOut => .recoverableFailure "Command timed out"
  | .raised msg => .recoverableFailure msg

/-- Modelled from the spec: classification of the fallback launch
(§4.4, §7): its exit code alone decides success, and every failure is
fatal because no further tier exists. -/
def classifyFallback : ProcResult → InvocationOutcome
  | .completed rc out err =>
    if rc = 0 then .success out else .fatalFailure err
  | .timedOut => .fatalFailure "Command timed out"
  | .raised msg => .fatalFailure msg

/-- What one supervisor invocation produced: the outcome returned to the
caller, the subprocess launches performed (in order), the filesystem
contents after return (paths of files on disk), and the caller's own
environment after return. -/
structure SupervisorResult where
  outcome : InvocationOutcome
  launches : List LaunchEvent
  fs : List String
  callerEnv : List (String × String)

/-- Modelled from the spec: the Invocation Supervisor (§4.4), the
`foundry_fn` of sources/llm_provider.py, which is not part of the
audited tree.  Preparing: normalize the history, serialize the canonical
request to the temporary artifact (written to the filesystem), build the
negotiated environment.  PrimaryRunning: launch the primary and classify
it; on success return the parsed reply; on recoverable failure launch
the fallback with the same artifact and environment if and only if the
fallback executable exists on disk, else fail fatally with the original
reason.  The artifact is removed on every exit path (the `finally`
block), and the caller's own environment is returned untouched. -/
def foundry_fn (ambient : List (String × String)) (version : String)
    (history : List TurnRepr) (artifactPath : String) (fs0 : List String)
    (w : World) : SupervisorResult :=
  let artifact := encodeRequest (normalizeMessages history)
  let env := buildFoundryEnv ambient version
  let fs1 := artifactPath :: fs0
  let primaryLaunch : LaunchEvent := ⟨.primary, artifact, env⟩
  match classifyPrimary w.primaryResult with
  | .success text =>
    ⟨.success text, [primaryLaunch], fs1.erase artifactPath, ambient⟩
  | .recoverableFailure reason =>
    if w.fallbackExists then
      ⟨classifyFallback w.fallbackResult,
       [primaryLaunch, ⟨.fallback, artifact, env⟩],
       fs1.erase artifactPath, ambient⟩
    else
      ⟨.fatalFailure reason, [primaryLaunch], fs1.erase artifactPath, ambient⟩
  | .fatalFailure reason =>
    ⟨.fatalFailure reason, [primaryLaunch], fs1.erase artifactPath, ambient⟩

theorem groupStep_run {c : Char} {cs : List Char} {rest : List (List Char)}
    {g : List Char} (hc : c.isDigit = true)
    (hrest : ∀ g' ∈ rest, isDigitRun g' = true)
    (h : g ∈ groupStep c cs rest) : isDigitRun g = true := by
  rcases cs with _ | ⟨d, cs'⟩ <;> rcases rest with _ | ⟨g₀, gs₀⟩
  · simp [groupStep, hc] at h
    simp [h, isDigitRun, hc]
  · simp [groupStep, hc] at h
    rcases h with h | h
    · simp [h, isDigitRun, hc]
    · exact hrest g (by simp [h])
  · simp [groupStep, hc] at h
    simp [h, isDigitRun, hc]
  · by_cases hd : d.isDigit
    · simp [groupStep, hc, hd] at h
      rcases h with h | h
      · have hg₀ : isDigitRun g₀ = true := hrest g₀ (by simp)
        simp only [isDigitRun, Bool.and_eq_true, List.all_eq_true] at hg₀ ⊢
        subst h
        refine ⟨by simp, ?_⟩
        intro x hx
        rcases List.mem_cons.mp hx with hx | hx
        · simpa [hx] using hc
        · exact hg₀.2 x hx
      · exact hrest g (by simp [h])
    · simp [groupStep, hc, hd] at h
      rcases h with h | h
      · simp [h, isDigitRun, hc]
      · exact hrest g (by simp [h])

theorem digitGroups_run {l g : List Char} (h : g ∈ digitGroups l) :
    isDigitRun g = true := by
  induction l generalizing g with
  | nil => simp [digitGroups] at h
  | cons c cs ih =>
    by_cases hc : c.isDigit
    · exact groupStep_run hc (fun g' hg' => ih hg') h
    · simp only [digitGroups, groupStep, hc, if_false] at h
      exact ih h

theorem digitGroups_eq_nil {l : List Char} (h : ∀ c ∈ l, c.isDigit = false) :
    digitGroups l = [] := by
  induction l with
  | nil => rfl
  | cons c cs ih =>
    have hc : c.isDigit = false := h c (by simp)
    have := ih (fun x hx => h x (by simp [hx]))
    simp [digitGroups, groupStep, hc, this]

theorem splitDots_append_dot {a : List Char} (r : List Char)
    (h : ∀ c ∈ a, ¬c = '.') : splitDots (a ++ '.' :: r) = a :: splitDots r := by
  induction a with
  | nil => simp [splitDots]
  | cons x xs ih =>
    have hx : ¬x = '.' := h x (by simp)
    have ihr := ih (fun c hc => h c (by simp [hc]))
    simp only [List.cons_append, splitDots, hx, if_false, List.append_eq]
    rw [ihr]

theorem splitDots_no_dot {a : List Char} (h : ∀ c ∈ a, ¬c = '.') :
    splitDots a = [a] := by
  induction a with
  | nil => rfl
  | cons x xs ih =>
    have hx : ¬x = '.' := h x (by simp)
    have ihr := ih (fun c hc => h c (by simp [hc]))
    simp [splitDots, hx, ihr]

theorem digitRun_no_dot {g : List Char} (h : isDigitRun g = true) :
    ∀ c ∈ g, ¬c = '.' := by
  intro c hc hdot
  simp only [isDigitRun, Bool.and_eq_true, List.all_eq_true] at h
  have := h.2 c hc
  rw [hdot] at this
  simp at this

theorem isSemVerChars_compose {gs : List (List Char)}
    (h : ∀ g ∈ gs, isDigitRun g = true) :
    isSemVerChars (composeVersion gs) = true := by
  have hzero : isDigitRun ['0'] = true := by decide
  rcases gs with _ | ⟨a, _ | ⟨b, _ | ⟨c, rest⟩⟩⟩
  · decide
  · have ha := h a (by simp)
    show isSemVerChars (a ++ '.' :: '0' :: '.' :: ['0']) = true
    unfold isSemVerChars
    rw [splitDots_append_dot _ (digitRun_no_dot ha)]
    rw [show splitDots ('0' :: '.' :: ['0']) = [['0'], ['0']] from by decide]
    simp [ha, hzero]
  · have ha := h a (by simp)
    have hb := h b (by simp)
    show isSemVerChars (a ++ '.' :: (b ++ '.' :: ['0'])) = true
    unfold isSemVerChars
    rw [splitDots_append_dot _ (digitRun_no_dot ha),
        splitDots_append_dot _ (digitRun_no_dot hb)]
    rw [show splitDots ['0'] = [['0']] from by decide]
    simp [ha, hb, hzero]
  · have ha := h a (by simp)
    have hb := h b (by simp)
    have hc := h c (by simp)
    show isSemVerChars (a ++ '.' :: (b ++ '.' :: c)) = true
    unfold isSemVerChars
    rw [splitDots_append_dot _ (digitRun_no_dot ha),
        splitDots_append_dot _ (digitRun_no_dot hb),
        splitDots_no_dot (digitRun_no_dot hc)]
    simp [ha, hb, hc]

theorem isSemVer_sanitize (s : String) : isSemVer (sanitizeVersion s) = true :=
  isSemVerChars_compose (fun _ hg => digitGroups_run hg)

theorem decodeTurns_encode (msgs : List ConversationTurn) :
    decodeTurns (msgs.map encodeTurn) = some msgs := by
  induction msgs with
  | nil => rfl
  | cons t ts ih =>
    have hdt : decodeTurn (encodeTurn t) = some t := rfl
    simp only [List.map, decodeTurns, hdt, ih]

/-- C1: for the literal malformed version input consisting of the digit
`5` followed by a newline, indentation and the digit `7`, the Version
Sanitizer returns the semantic version with major 5, minor 7 and
patch 0. -/
theorem sanitize_defect_literal : sanitizeVersion "5\n      7" = "5.7.0" := by
  decide

/-- C2: the Version Sanitizer is total: for every input string it
returns a string that reads as a three-component `MAJOR.MINOR.PATCH`
semantic version of non-negative integers, and for every input string
containing no digit characters it returns exactly `0.0.0`. -/
theorem sanitize_total_and_fallback (s : String) :
    isSemVer (sanitizeVersion s) = true ∧
    ((∀ c ∈ s.data, c.isDigit = false) → sanitizeVersion s = "0.0.0") := by
  refine ⟨isSemVer_sanitize s, fun h => ?_⟩
  unfold sanitizeVersion
  rw [digitGroups_eq_nil h]
  rfl

/-- Witness for C2 at the digit-free input `"abc"`. -/
theorem sanitize_total_and_fallback_witness :
    isSemVer (sanitizeVersion "abc") = true ∧ sanitizeVersion "abc" = "0.0.0" :=
  ⟨(sanitize_total_and_fallback "abc").1,
   (sanitize_total_and_fallback "abc").2 (by decide)⟩

/-- C3: the Message Normalizer is total and order-preserving: it is a
function defined on every input sequence of the three turn shapes, the
empty sequence yields the empty canonical request, the output has one
turn per input element, the i-th output turn is the normalization of the
i-th input element, and each shape normalizes as specified (dict kept,
ordered pair read positionally, any other value coerced to role `user`
with its string representation as content). -/
theorem normalize_total_order (history : List TurnRepr) :
    normalizeMessages [] = [] ∧
    (normalizeMessages history).length = history.length ∧
    (∀ i : Nat, (normalizeMessages history)[i]? = history[i]?.map normalizeTurn) ∧
    (∀ r c, normalizeTurn (.rcDict r c) = ⟨r, c⟩) ∧
    (∀ r c, normalizeTurn (.pair r c) = ⟨r, c⟩) ∧
    (∀ s, normalizeTurn (.scalar s) = ⟨"user", s⟩) := by
  refine ⟨rfl, ?_, ?_, fun r c => rfl, fun r c => rfl, fun s => rfl⟩
  · simp [normalizeMessages]
  · intro i
    simp [normalizeMessages]

/-- C4: round-trip: serializing a canonical request to the temporary
artifact object `{"messages": [...]}` and reading the artifact back
yields an identical ordered sequence of role/content turns. -/
theorem artifact_roundtrip (msgs : List ConversationTurn) :
    decodeRequest (encodeRequest msgs) = some msgs := by
  show decodeTurns (msgs.map encodeTurn) = some msgs
  exact decodeTurns_encode msgs

/-- C5: when the primary invocation ends in a recoverable failure, the
supervisor launches the fallback if and only if the fallback executable
is present on disk (otherwise it goes directly to the fatal terminal
state carrying the original failure reason); the fallback is launched
exactly once, after the single primary launch, with the identical
serialized request artifact, and the primary is never re-invoked. -/
theorem fallback_decision (ambient : List (String × String))
    (version : String) (history : List TurnRepr) (artifactPath : String)
    (fs0 : List String) (w : World) (reason : String)
    (h : classifyPrimary w.primaryResult = .recoverableFailure reason) :
    (foundry_fn ambient version history artifactPath fs0 w).launches =
      (if w.fallbackExists then
        [⟨.primary, encodeRequest (normalizeMessages history),
          buildFoundryEnv ambient version⟩,
         ⟨.fallback, encodeRequest (normalizeMessages history),
          buildFoundryEnv ambient version⟩]
      else
        [⟨.primary, encodeRequest (normalizeMessages history),
          buildFoundryEnv ambient version⟩]) ∧
    (w.fallbackExists = false →
      (foundry_fn ambient version history artifactPath fs0 w).outcome =
        .fatalFailure reason) := by
  unfold foundry_fn
  rw [h]
  cases hfe : w.fallbackExists <;> simp

/-- Witness for C5: primary exits 1 with stderr `boom`, fallback exists
and would succeed; the supervisor performs exactly the primary launch
followed by one fallback launch with the same artifact. -/
theorem fallback_decision_witness :
    (foundry_fn [] "1.0.0" [.rcDict "user" "Hello"] "tmp.json" []
        ⟨true, .completed 1 "" "boom", .completed 0 "ok" ""⟩).launches =
      (if (true : Bool) then
        [⟨.primary, encodeRequest (normalizeMessages [.rcDict "user" "Hello"]),
          buildFoundryEnv [] "1.0.0"⟩,
         ⟨.fallback, encodeRequest (normalizeMessages [.rcDict "user" "Hello"]),
          buildFoundryEnv [] "1.0.0"⟩]
      else
        [⟨.primary, encodeRequest (normalizeMessages [.rcDict "user" "Hello"]),
          buildFoundryEnv [] "1.0.0"⟩]) ∧
    ((true : Bool) = false →
      (foundry_fn [] "1.0.0" [.rcDict "user" "Hello"] "tmp.json" []
          ⟨true, .completed 1 "" "boom", .completed 0 "ok" ""⟩).outcome =
        .fatalFailure "boom") :=
  fallback_decision [] "1.0.0" [.rcDict "user" "Hello"] "tmp.json" []
    ⟨true, .completed 1 "" "boom", .completed 0 "ok" ""⟩ "boom" rfl

/-- C6: a launch that hits the wall-clock timeout is classified as a
failure of its tier — recoverable for the primary with the timeout
marker as the reason, fatal for the fallback — and never as a success;
the command-running helper returns the timeout triple, so control
returns to the caller instead of blocking. -/
theorem timeout_classified (w : World) (h : w.primaryResult = .timedOut) :
    classifyPrimary w.primaryResult =
      .recoverableFailure "Command timed out" ∧
    (∀ t, classifyPrimary w.primaryResult ≠ .success t) ∧
    classifyFallback .timedOut = .fatalFailure "Command timed out" ∧
    run_command .timedOut = (-1, "", "Command timed out") := by
  rw [h]
  refine ⟨rfl, ?_, rfl, rfl⟩
  intro t hct
  simp [classifyPrimary] at hct

/-- Witness for C6 at a world whose primary launch times out. -/
theorem timeout_classified_witness :
    classifyPrimary (World.primaryResult ⟨false, .timedOut, .timedOut⟩) =
      .recoverableFailure "Command timed out" ∧
    (∀ t, classifyPrimary (World.primaryResult ⟨false, .timedOut, .timedOut⟩) ≠
      .success t) ∧
    classifyFallback .timedOut = .fatalFailure "Command timed out" ∧
    run_command .timedOut = (-1, "", "Command timed out") :=
  timeout_classified ⟨false, .timedOut, .timedOut⟩ rfl

/-- C7: the temporary request artifact is removed on every exit path of
an invocation attempt — success, classified failure, and exception
raised during process launch — so after the supervisor returns, and
after any second sequential invocation, the filesystem is exactly as it
was and no stale artifact remains. -/
theorem artifact_cleanup (ambient : List (String × String))
    (version : String) (history : List TurnRepr) (artifactPath : String)
    (fs0 : List String) (w w₂ : World) (h : artifactPath ∉ fs0) :
    (foundry_fn ambient version history artifactPath fs0 w).fs = fs0 ∧
    artifactPath ∉ (foundry_fn ambient version history artifactPath fs0 w).fs ∧
    (foundry_fn ambient version history artifactPath
      (foundry_fn ambient version history artifactPath fs0 w).fs w₂).fs = fs0 := by
  have herase : ∀ v : World,
      (foundry_fn ambient version history artifactPath fs0 v).fs = fs0 := by
    intro v
    unfold foundry_fn
    cases hcp : classifyPrimary v.primaryResult <;>
      cases hfe : v.fallbackExists <;>
      simp [List.erase_cons_head]
  refine ⟨herase w, ?_, ?_⟩
  · rw [herase w]
    exact h
  · rw [herase w]
    exact herase w₂

/-- Witness for C7: a primary that raises during launch, then a second
invocation; the artifact is gone after both. -/
theorem artifact_cleanup_witness :
    (foundry_fn [] "1.0.0" [] "tmp.json" []
        ⟨false, .raised "launch failed", .timedOut⟩).fs = [] ∧
    "tmp.json" ∉ (foundry_fn [] "1.0.0" [] "tmp.json" []
        ⟨false, .raised "launch failed", .timedOut⟩).fs ∧
    (foundry_fn [] "1.0.0" [] "tmp.json"
      (foundry_fn [] "1.0.0" [] "tmp.json" []
        ⟨false, .raised "launch failed", .timedOut⟩).fs
      ⟨true, .completed 0 "Hi" "", .completed 0 "" ""⟩).fs = [] :=
  artifact_cleanup [] "1.0.0" [] "tmp.json" []
    ⟨false, .raised "launch failed", .timedOut⟩
    ⟨true, .completed 0 "Hi" "", .completed 0 "" ""⟩ (by simp)

/-- C8: for every ambient environment and every sanitized version, the
Environment Negotiator returns the ambient environment overlaid with
exactly the four fixed keys — the CPU-only execution-provider selector,
the accelerator-device-hiding flag, the probe-skip flag and the version
override — the overlay value winning over any pre-existing ambient value
for those keys, and every other key resolving exactly as in the ambient
environment. -/
theorem env_overlay (ambient : List (String × String)) (version : String) :
    (buildFoundryEnv ambient version).lookup "FOUNDRY_EXECUTION_PROVIDER" =
      some "CPUExecutionProvider" ∧
    (buildFoundryEnv ambient version).lookup "CUDA_VISIBLE_DEVICES" =
      some "-1" ∧
    (buildFoundryEnv ambient version).lookup "FOUNDRY_SKIP_CUDA_CHECK" =
      some "1" ∧
    (buildFoundryEnv ambient version).lookup "FOUNDRY_CUDA_VERSION_OVERRIDE" =
      some version ∧
    (∀ k, k ∉ overlayKeys →
      (buildFoundryEnv ambient version).lookup k = ambient.lookup k) := by
  refine ⟨rfl, rfl, rfl, rfl, ?_⟩
  intro k hk
  simp only [overlayKeys, List.mem_cons, List.not_mem_nil, or_false,
    not_or] at hk
  obtain ⟨h1, h2, h3, h4⟩ := hk
  have b1 : (k == "FOUNDRY_EXECUTION_PROVIDER") = false :=
    beq_eq_false_iff_ne.mpr h1
  have b2 : (k == "CUDA_VISIBLE_DEVICES") = false :=
    beq_eq_false_iff_ne.mpr h2
  have b3 : (k == "FOUNDRY_SKIP_CUDA_CHECK") = false :=
    beq_eq_false_iff_ne.mpr h3
  have b4 : (k == "FOUNDRY_CUDA_VERSION_OVERRIDE") = false :=
    beq_eq_false_iff_ne.mpr h4
  simp [buildFoundryEnv, overlayPairs, List.lookup, b1, b2, b3, b4]

/-- Witness for C8: an ambient environment that already binds
`CUDA_VISIBLE_DEVICES` is overridden by the overlay value, while the
unrelated key `PATH` keeps its ambient binding. -/
theorem env_overlay_witness :
    (buildFoundryEnv [("CUDA_VISIBLE_DEVICES", "0"), ("PATH", "/bin")]
        "12.0.0").lookup "CUDA_VISIBLE_DEVICES" = some "-1" ∧
    (buildFoundryEnv [("CUDA_VISIBLE_DEVICES", "0"), ("PATH", "/bin")]
        "12.0.0").lookup "FOUNDRY_CUDA_VERSION_OVERRIDE" = some "12.0.0" ∧
    (buildFoundryEnv [("CUDA_VISIBLE_DEVICES", "0"), ("PATH", "/bin")]
        "12.0.0").lookup "PATH" =
      ([("CUDA_VISIBLE_DEVICES", "0"), ("PATH", "/bin")] :
        List (String × String)).lookup "PATH" :=
  ⟨(env_overlay [("CUDA_VISIBLE_DEVICES", "0"), ("PATH", "/bin")]
      "12.0.0").2.1,
   (env_overlay [("CUDA_VISIBLE_DEVICES", "0"), ("PATH", "/bin")]
      "12.0.0").2.2.2.1,
   (env_overlay [("CUDA_VISIBLE_DEVICES", "0"), ("PATH", "/bin")]
      "12.0.0").2.2.2.2 "PATH" (by decide)⟩

/-- C9: an invocation never mutates the calling process's own
environment: the caller's environment after the supervisor returns is
exactly the ambient environment it started with, and the overlay is
applied only to the fresh environment handed to each spawned
subprocess. -/
theorem caller_env_unchanged (ambient : List (String × String))
    (version : String) (history : List TurnRepr) (artifactPath : String)
    (fs0 : List String) (w : World) :
    (foundry_fn ambient version history artifactPath fs0 w).callerEnv =
      ambient ∧
    (∀ e ∈ (foundry_fn ambient version history artifactPath fs0 w).launches,
      e.env = buildFoundryEnv ambient version) := by
  unfold foundry_fn
  cases hcp : classifyPrimary w.primaryResult <;>
    cases hfe : w.fallbackExists <;>
    constructor <;>
    simp_all

/-- Witness for C9 at a concrete invocation whose primary fails and
whose fallback runs. -/
theorem caller_env_unchanged_witness :
    (foundry_fn [("PATH", "/bin")] "12.0.0" [.pair "user" "Hi"] "tmp.json"
        ["other.txt"] ⟨true, .completed 1 "" "err", .completed 0 "ok" ""⟩
      ).callerEnv = [("PATH", "/bin")] ∧
    (∀ e ∈ (foundry_fn [("PATH", "/bin")] "12.0.0" [.pair "user" "Hi"]
        "tmp.json" ["other.txt"]
        ⟨true, .completed 1 "" "err", .completed 0 "ok" ""⟩).launches,
      e.env = buildFoundryEnv [("PATH", "/bin")] "12.0.0") :=
  caller_env_unchanged [("PATH", "/bin")] "12.0.0" [.pair "user" "Hi"]
    "tmp.json" ["other.txt"] ⟨true, .completed 1 "" "err", .completed 0 "ok" ""⟩

/-- C10: the command-running helper is total — every launch behaviour
yields a `(returncode, stdout, stderr)` triple, never an exception — a
timeout yields `(-1, "", "Command timed out")`, any other launch failure
yields `-1`, empty stdout and the exception's message, and by return
code alone a timeout, an absent binary and a process that genuinely
exited with code `-1` are indistinguishable (a completed process can
even reproduce the timeout triple exactly). -/
theorem run_command_total_cases :
    (∀ b : ProcResult, ∃ rc out err, run_command b = (rc, out, err)) ∧
    run_command .timedOut = (-1, "", "Command timed out") ∧
    (∀ msg, run_command (.raised msg) = (-1, "", msg)) ∧
    run_command (.completed (-1) "" "Command timed out") =
      run_command .timedOut ∧
    (run_command (.raised "No such file or directory: foundry")).1 =
      (run_command .timedOut).1 ∧
    (run_command (.completed (-1) "some output" "real stderr")).1 =
      (run_command .timedOut).1 := by
  refine ⟨fun b => ?_, rfl, fun msg => rfl, rfl, rfl, rfl⟩
  cases b with
  | completed rc out err => exact ⟨rc, out, err, rfl⟩
  | timedOut => exact ⟨-1, "", "Command timed out", rfl⟩
  | raised msg => exact ⟨-1, "", msg, rfl⟩

end DarbotSeek
